import Mathlib

/-!
Shallow embedding of the FAT-filesystem core of the `inky-frame` repository
(`src/fs/volume.rs`, `src/fs/volume/{name,file,helpers,objects}.rs`,
`src/fs/{block,device}.rs`, and the `Slice`/`SliceMut` helpers of `src/lib.rs`),
together with theorems settling the frozen claims about it.

Machine integers are modelled as `Nat` with explicit `% 2^w` where wrapping can
occur.  A disk sector (`Block`, 512 bytes) is a total map from byte index to
byte value; the block device is a total map from sector index to sector.
Loops that walk on-disk structures take explicit fuel; each call site passes
fuel that provably dominates the number of iterations the Rust loop performs,
so the embedding agrees with the code whenever the theorems apply.
Read caching (`BlockCache`) only avoids re-reading unchanged sectors, so the
pure model reads the current device directly.
-/

set_option maxRecDepth 8000

namespace Inky

/-! ## Bytes, sectors and the block device (`src/lib.rs`, `src/fs/block.rs`) -/

/-- One 512-byte sector (`Block` in `fs/block.rs`); indices ≥ 512 are unused. -/
abbrev Block := Nat → Nat

/-- The block device: sector index → sector content. -/
abbrev Device := Nat → Block

/-- `Block::SIZE` -/
def BLOCK_SIZE : Nat := 512

/-- `Slice::read_u8` -/
def read_u8 (b : Block) (i : Nat) : Nat := b i % 256

/-- `Slice::read_u16` (little-endian). -/
def read_u16 (b : Block) (i : Nat) : Nat := read_u8 b i + 256 * read_u8 b (i + 1)

/-- `Slice::read_u32` (little-endian). -/
def read_u32 (b : Block) (i : Nat) : Nat :=
  read_u8 b i + 256 * read_u8 b (i + 1) + 65536 * read_u8 b (i + 2) +
    16777216 * read_u8 b (i + 3)

/-- `SliceMut::write_u8` -/
def write_u8 (b : Block) (i v : Nat) : Block :=
  fun j => if j = i then v % 256 else b j

/-- `SliceMut::write_u16` (little-endian). -/
def write_u16 (b : Block) (i v : Nat) : Block :=
  write_u8 (write_u8 b i v) (i + 1) (v / 256)

/-- `SliceMut::write_u32` (little-endian). -/
def write_u32 (b : Block) (i v : Nat) : Block :=
  write_u8 (write_u8 (write_u8 (write_u8 b i v) (i + 1) (v / 256)) (i + 2) (v / 65536))
    (i + 3) (v / 16777216)

/-- `SliceMut::write_from`: copy a byte list into the block starting at `i`. -/
def write_from (b : Block) (i : Nat) : List Nat → Block
  | [] => b
  | v :: r => write_from (write_u8 b i v) (i + 1) r

/-- The device plus a count of `write_single` calls performed so far
    (used to settle claims about "zero device writes"). -/
structure DState where
  dev : Device
  writes : Nat

/-- `Storage::write_single`: replace one sector, counting the write. -/
def DState.write_single (st : DState) (tmp : Block) (n : Nat) : DState :=
  ⟨fun m => if m = n then tmp else st.dev m, st.writes + 1⟩

/-- The error enumeration of `src/fs/device.rs` (variants used by the claims). -/
inductive DeviceError where
  | Timeout | NotAFile | NotFound | EndOfFile | NotReadable | NotWritable
  | UnexpectedEoF | NotADirectory | NonEmptyDirectory
  | Read | Write | BadData | NoSpace | Hardware (code : Nat)
  | Overflow | InvalidIndex | InvalidOptions
  | NameTooLong | InvalidChain | InvalidVolume | InvalidCluster
  | InvalidChecksum | InvalidPartition | InvalidFileSystem
  | UnsupportedVolume (t : Nat) | UnsupportedFileSystem
  deriving DecidableEq, Repr

/-! ## Long names (`src/fs/volume/name.rs`, `LongName`) -/

namespace LongName

/-- `LongName::SIZE` -/
def SIZE : Nat := 255

/-- `LongName::len`: index of the first NUL byte, or 255 if none.
    (A `LongName` is a 255-byte buffer; we carry it as a length-255 list.) -/
def len (n : List Nat) : Nat := n.findIdx (· = 0)

/-- `LongName::lfn_size` (name.rs 110-124).  `0xC = 12`; the two casts to `u8`
    are the `% 256`; the final `+ 1` is a `u8` addition, hence the outer `% 256`. -/
def lfn_size (n : List Nat) : Nat :=
  let r := len n
  if r ≤ 13 then 1
  else
    let r := r + 1
    let c := r / 12
    if c * 12 = r then c % 256
    else
      let r := if r > 12 then r + 1 else r
      ((r / 12) % 256 + 1) % 256

end LongName

/-! ## Short names (`src/fs/volume/name.rs`, `ShortName`) -/

namespace ShortName

/-- `ShortName::SIZE` -/
def SIZE : Nat := 11

/-- `ShortName::SIZE_NAME` -/
def SIZE_NAME : Nat := 8

/-- `ShortName::SELF` -/
def SELF : List Nat := [0x2E, 0x20, 0x20, 0x20, 0x20, 0x20, 0x20, 0x20, 0x20, 0x20, 0x20]

/-- `ShortName::PARENT` -/
def PARENT : List Nat := [0x2E, 0x2E, 0x20, 0x20, 0x20, 0x20, 0x20, 0x20, 0x20, 0x20, 0x20]

/-- `ShortName::checksum` (name.rs 248-255):
    `s = ((s & 1) << 7).wrapping_add((s >> 1) + *i)` over the 11 raw bytes,
    all in `u8` (release-mode wrapping on the inner `+`). -/
def checksum (n : List Nat) : Nat :=
  n.foldl (fun s i => (s % 2 * 128 + (s / 2 + i) % 256) % 256) 0

/-- Modelled from the spec: the standard FAT LFN checksum reference definition —
    starting from 0, `sum = rotate_right_by_1(sum) + byte` with 8-bit wrapping,
    where for an 8-bit `s`, `rotate_right_by_1(s) = (s >> 1) | ((s & 1) << 7)
    = s / 2 + s % 2 * 128`. -/
def checksum_spec (n : List Nat) : Nat :=
  n.foldl (fun s i => (s % 2 * 128 + s / 2 + i) % 256) 0

/-- `ShortName::transform_char` (name.rs 286-293). -/
def transform_char (v : Nat) : Nat :=
  if v ≤ 0x1F ∨ v = 0x20 ∨ v = 0x22 ∨ v = 0x2A ∨ v = 0x2B ∨ v = 0x2C ∨ v = 0x2F ∨
     v = 0x3A ∨ v = 0x3B ∨ v = 0x3C ∨ v = 0x3D ∨ v = 0x3E ∨ v = 0x3F ∨ v = 0x5B ∨
     v = 0x5C ∨ v = 0x5D ∨ v = 0x7C then 0x2B
  else if 0x61 ≤ v ∧ v ≤ 0x7A then v - 0x20
  else v

/-- Last index of `'.'` (0x2E) in the input, `rposition` in `to_sfn`. -/
def rpos_dot : List Nat → Option Nat
  | [] => none
  | x :: xs =>
    match rpos_dot xs with
    | some i => some (i + 1)
    | none => if x = 0x2E then some 0 else none

/-- Write `src[0..len]` into `sfn` starting at position `start` (slice copy). -/
def copy_into (sfn : List Nat) (start : Nat) (src : List Nat) (len : Nat) : List Nat :=
  (List.range len).foldl (fun s t => s.set (start + t) (src.getD t 0)) sfn

/-- Fill positions `[start, stop)` of `sfn` with byte `v`. -/
def fill_range (sfn : List Nat) (start stop v : Nat) : List Nat :=
  (List.range (stop - start)).foldl (fun s t => s.set (start + t) v) sfn

/-- `ShortName::to_sfn` (name.rs 294-352), acting on the 11-byte buffer `sfn`. -/
def to_sfn (b : List Nat) (sfn : List Nat) : List Nat :=
  if b.length = 0 then sfn
  else if b = [0x2E] then SELF
  else if b = [0x2E, 0x2E] then PARENT
  else
    -- extension: bytes after the last '.', at most 3, into positions 8..11
    let n := match rpos_dot b with
      | some i =>
        let sfn' :=
          match b.length - (i + 1) with
          | 0 => sfn
          | 1 => sfn.set SIZE_NAME (b.getD (i + 1) 0)
          | 2 => (sfn.set SIZE_NAME (b.getD (i + 1) 0)).set (SIZE_NAME + 1) (b.getD (i + 2) 0)
          | _ + 3 => copy_into sfn SIZE_NAME (b.drop (i + 1)) 3
        (i, sfn')
      | none => (b.length, sfn)
    let i := n.1
    let sfn := n.2
    -- base name into positions 0..8
    let sfn :=
      if i < SIZE_NAME then fill_range (copy_into sfn 0 b i) i SIZE_NAME 0x20
      else if i = SIZE_NAME then copy_into sfn 0 b SIZE_NAME
      else ((copy_into sfn 0 b (SIZE_NAME - 2)).set (SIZE_NAME - 2) 0x7E).set (SIZE_NAME - 1) 0x31
    -- flatten spaces of the original base to '_' (only the first min(i,8) bytes)
    let sfn :=
      (List.range (min i SIZE_NAME)).foldl
        (fun s t => if s.getD t 0 = 0x20 then s.set t 0x5F else s) sfn
    -- capitalize / sanitize every byte of the 8-byte base
    (sfn.take SIZE_NAME).map transform_char ++ sfn.drop SIZE_NAME

/-- `ShortName::from_slice`: `to_sfn` on a fresh, space-filled 11-byte buffer. -/
def from_slice (b : List Nat) : List Nat :=
  to_sfn b (List.replicate SIZE 0x20)

end ShortName

/-! ## Open modes (`src/fs/volume/file.rs`, `Mode`) -/

namespace Mode

def READ : Nat := 0
def WRITE : Nat := 1
def CREATE : Nat := 2
def APPEND : Nat := 4
def TRUNCATE : Nat := 8

/-- `Mode::is_mode_valid` (file.rs 100-107):
    `m.unchecked_shr(4) > 0 || m & (TRUNCATE | APPEND) == 0x12 || m == CREATE`
    rejects, everything else is accepted.  Note the literal is `0x12 = 18`. -/
def is_mode_valid (m : Nat) : Bool :=
  if m / 2 ^ 4 > 0 ∨ m &&& (TRUNCATE ||| APPEND) = 0x12 ∨ m = CREATE then false else true

/-- `Mode::is_create` (file.rs 96-99). -/
def is_create (m : Nat) : Bool :=
  m &&& CREATE ≠ 0 ∧ (m &&& WRITE ≠ 0 ∨ m &&& APPEND ≠ 0)

end Mode

/-! ### C1 — `LongName::lfn_size` -/

/-- A 255-byte buffer holding a 22-byte name (22 letters `a`, NUL-padded). -/
def c1buf : List Nat := List.replicate 22 97 ++ List.replicate 233 0

/-- C1 counterexample: for the stored name of length 22, `lfn_size` returns 3,
    while the claimed `ceil((len+1)/13) = ceil(23/13) = 2`; the claim is false
    at this input. -/
theorem c1_lfn_size_counterexample :
    LongName.len c1buf = 22 ∧ LongName.lfn_size c1buf = 3 ∧
    (LongName.len c1buf + 1 + 12) / 13 = 2 := by decide

/-- C1 (amended): for every 255-byte buffer with stored length `0 < len ≤ 255`,
    `lfn_size` returns 1 when `len ≤ 13`, and otherwise
    `ceil((len+1)/12)` plus one extra record exactly when `(len+1) % 12 = 11`
    (the code divides by 12, not 13, and adds a pad slot). -/
theorem c1_lfn_size_amended (n : List Nat) (hlen : n.length = 255)
    (hpos : 0 < LongName.len n) :
    LongName.lfn_size n =
      if LongName.len n ≤ 13 then 1
      else (LongName.len n + 12) / 12 + (if (LongName.len n + 1) % 12 = 11 then 1 else 0) := by
  have hle : LongName.len n ≤ 255 := by
    have h : n.findIdx (· = 0) ≤ n.length := List.findIdx_le_length _
    simpa [LongName.len, hlen] using h
  unfold LongName.lfn_size
  generalize LongName.len n = k at hpos hle
  simp only []
  split
  · simp_all
  · by_cases h11 : (k + 1) % 12 = 11 <;>
      simp only [h11, if_true, if_false] <;>
      split <;> (try split) <;> omega

/-- A 255-byte buffer holding a 20-byte name. -/
def c1wit : List Nat := List.replicate 20 97 ++ List.replicate 235 0

/-- C1 witness: the amended theorem applied to a concrete 20-byte name. -/
theorem c1_lfn_size_amended_witness :
    LongName.lfn_size c1wit =
      if LongName.len c1wit ≤ 13 then 1
      else (LongName.len c1wit + 12) / 12 +
        (if (LongName.len c1wit + 1) % 12 = 11 then 1 else 0) :=
  c1_lfn_size_amended c1wit (by decide) (by decide)

/-! ### C9 — `ShortName::checksum` -/

/-- The two checksum folds use pointwise-equal step functions. -/
theorem checksum_step_eq (s i : Nat) :
    (s % 2 * 128 + (s / 2 + i) % 256) % 256 = (s % 2 * 128 + s / 2 + i) % 256 := by
  omega

/-- C9: for every 11-byte short name, `ShortName::checksum` equals the
    standard FAT LFN checksum reference definition (rotate-right-by-1 then
    add, modulo 2^8, starting from 0). -/
theorem c9_checksum_eq_spec (n : List Nat) (hlen : n.length = 11) :
    ShortName.checksum n = ShortName.checksum_spec n := by
  unfold ShortName.checksum ShortName.checksum_spec
  congr 1
  funext s i
  exact checksum_step_eq s i

/-- C9 witness: the checksum agreement at the concrete name `SELF`. -/
theorem c9_checksum_eq_spec_witness :
    ShortName.checksum ShortName.SELF = ShortName.checksum_spec ShortName.SELF :=
  c9_checksum_eq_spec ShortName.SELF (by decide)

/-! ### C5 — `ShortName::to_sfn` -/

/-- C5 (code evaluated at the failing inputs): filling a short name from `"A"`
    yields `A+++++++` as the 8-byte base — the seven 0x20 padding bytes are
    rewritten to `'+' = 0x2B` by the final `transform_char` pass, although the
    code's own comment says "the empty bytes stay as spaces"; likewise
    `"AB.TXT"` yields `AB++++++TXT`, not a space-padded base. -/
theorem c5_to_sfn_code_bug :
    ShortName.from_slice [0x41] =
      [0x41, 0x2B, 0x2B, 0x2B, 0x2B, 0x2B, 0x2B, 0x2B, 0x20, 0x20, 0x20] ∧
    ShortName.from_slice [0x41, 0x42, 0x2E, 0x54, 0x58, 0x54] =
      [0x41, 0x42, 0x2B, 0x2B, 0x2B, 0x2B, 0x2B, 0x2B, 0x54, 0x58, 0x54] := by
  constructor <;> rfl

/-! ### C3 — `Mode::is_mode_valid` -/

/-- C3 (code evaluated at the failing inputs): `WRITE|APPEND|TRUNCATE = 13`
    and `CREATE|TRUNCATE = 10` are accepted even though the claim says they are
    rejected with `InvalidOptions`; the test `m & (TRUNCATE|APPEND) == 0x12`
    can never fire because `m & 12 ≤ 12 < 18`, while `m ≥ 16` and `m = CREATE`
    are indeed rejected. -/
theorem c3_is_mode_valid_code_bug :
    Mode.is_mode_valid 13 = true ∧ Mode.is_mode_valid 10 = true ∧
    Mode.TRUNCATE ||| Mode.APPEND = 12 ∧
    Mode.is_mode_valid 2 = false ∧ Mode.is_mode_valid 16 = false ∧
    (∀ m : Nat, (m &&& 12 = 18) = False) := by
  refine ⟨rfl, rfl, rfl, rfl, rfl, fun m => ?_⟩
  simp only [eq_iff_iff, iff_false]
  intro h
  have hle : m &&& 12 ≤ 12 := Nat.and_le_right
  omega

/-! ## Volume geometry (`Volume`/`Index`/`Blocks` in volume.rs, `FatVersion` in objects.rs) -/

/-- The fields of `Volume` (volume.rs 47-70) that the FAT-level operations read.
    `sectorVal` is the `FatVersion` payload (`FatVersion::sector()`): the
    max-root-entries value on FAT16, the FS-info sector index on FAT32.
    `count` is `Blocks::count` (total sectors), `clusters` is
    `Blocks::clusters` (sectors per cluster). -/
structure VolCfg where
  fat32 : Bool
  sectorVal : Nat
  fat : Nat
  lba : Nat
  data : Nat
  count : Nat
  clusters : Nat

/-- FAT entry width in bytes: 4 on FAT32, 2 on FAT16. -/
def VolCfg.width (c : VolCfg) : Nat := if c.fat32 then 4 else 2

/-- `Volume::offset` (volume.rs 331-338), identical to `Manager::cluster_offset`
    (helpers.rs 119-129): (byte offset inside the FAT sector, sector index). -/
def VolCfg.offset (c : VolCfg) (idx : Nat) : Nat × Nat :=
  ((idx * c.width) % 512, c.lba + (c.fat + idx * c.width / 512))

/-- `Volume::block_pos_at` (volume.rs 346-349) = `Manager::block_pos_at`. -/
def Volume.block_pos_at (c : VolCfg) (idx : Nat) : Nat :=
  c.lba + c.data + (idx - 2) * c.clusters

/-- The raw FAT entry bits of cluster `idx`, as `Volume::next` reads them
    (`read_u16` on FAT16, `read_u32` on FAT32). -/
def fat_entry_raw (c : VolCfg) (d : Device) (idx : Nat) : Nat :=
  if c.fat32 then read_u32 (d (c.offset idx).2) (c.offset idx).1
  else read_u16 (d (c.offset idx).2) (c.offset idx).1

/-- The FAT entry value: the raw 16 bits on FAT16, the low 28 bits on FAT32. -/
def fat_entry (c : VolCfg) (d : Device) (idx : Nat) : Nat :=
  if c.fat32 then fat_entry_raw c d idx &&& 0xFFFFFFF else fat_entry_raw c d idx

/-- The FAT16 value dispatch of `Volume::next` (volume.rs 513-518). -/
def next_val16 (v : Nat) : Except DeviceError (Option Nat) :=
  if v = 0 then .error .InvalidChain
  else if v = 0xFFF7 then .error .InvalidCluster
  else if 0xFFF8 ≤ v ∧ v ≤ 0xFFFF then .ok none
  else .ok (some v)

/-- The FAT32 value dispatch of `Volume::next` (volume.rs 521-526), identical in
    `Manager::cluster_next` (helpers.rs 250-255); `v` is already masked. -/
def next_val32 (v : Nat) : Except DeviceError (Option Nat) :=
  if v = 0 then .error .InvalidChain
  else if v = 0xFFFFFF7 then .error .InvalidCluster
  else if v = 0x1 ∨ (0xFFFFFF8 ≤ v ∧ v ≤ 0xFFFFFFF) then .ok none
  else .ok (some v)

/-- The FAT16 value dispatch of `Manager::cluster_next` (helpers.rs 245-249):
    it has no arm for `0`, which therefore falls into `Ok(Some(0))`. -/
def cluster_next_val16 (v : Nat) : Except DeviceError (Option Nat) :=
  if v = 0xFFF7 then .error .InvalidCluster
  else if 0xFFF8 ≤ v ∧ v ≤ 0xFFFF then .ok none
  else .ok (some v)

/-- `Volume::next` (volume.rs 504-528).  The scratch block receives the FAT
    sector `(c.offset idx).2`; the `BlockCache` only avoids re-reads. -/
def Volume.next (c : VolCfg) (d : Device) (idx : Nat) : Except DeviceError (Option Nat) :=
  if c.fat32 then
    if (c.offset idx).1 + 4 > BLOCK_SIZE then .error .InvalidCluster
    else next_val32 (fat_entry_raw c d idx &&& 0xFFFFFFF)
  else
    if (c.offset idx).1 + 2 > BLOCK_SIZE then .error .InvalidCluster
    else next_val16 (fat_entry_raw c d idx)

/-- `Manager::cluster_next` (helpers.rs 236-257): both bound guards first,
    then the per-version value dispatch. -/
def Manager.cluster_next (c : VolCfg) (d : Device) (pos : Nat) : Except DeviceError (Option Nat) :=
  if c.fat32 = false ∧ (c.offset pos).1 + 2 > BLOCK_SIZE then .error .InvalidCluster
  else if c.fat32 = true ∧ (c.offset pos).1 + 4 > BLOCK_SIZE then .error .InvalidCluster
  else if c.fat32 then next_val32 (fat_entry_raw c d pos &&& 0xFFFFFFF)
  else cluster_next_val16 (fat_entry_raw c d pos)

/-- FAT entries never straddle a sector: the in-sector offset leaves room for
    one full entry, so the `s + width > Block::SIZE` guards can never fire. -/
theorem offset_fst_add_width_le (c : VolCfg) (idx : Nat) :
    (c.offset idx).1 + c.width ≤ 512 := by
  unfold VolCfg.offset VolCfg.width
  by_cases h : c.fat32
  · simp only [h, if_true]
    have h4 : idx * 4 % 512 = 4 * (idx % 128) := by
      rw [Nat.mul_comm idx 4]
      exact Nat.mul_mod_mul_left 4 idx 128
    omega
  · simp [h]
    have h2 : idx * 2 % 512 = 2 * (idx % 256) := by
      rw [Nat.mul_comm idx 2]
      exact Nat.mul_mod_mul_left 2 idx 256
    omega

theorem read_u8_lt (b : Block) (i : Nat) : read_u8 b i < 256 := by
  unfold read_u8; omega

theorem read_u16_lt (b : Block) (i : Nat) : read_u16 b i < 65536 := by
  have h1 := read_u8_lt b i
  have h2 := read_u8_lt b (i + 1)
  unfold read_u16; omega

theorem read_u32_lt (b : Block) (i : Nat) : read_u32 b i < 4294967296 := by
  have h1 := read_u8_lt b i
  have h2 := read_u8_lt b (i + 1)
  have h3 := read_u8_lt b (i + 2)
  have h4 := read_u8_lt b (i + 3)
  unfold read_u32; omega

theorem fat_entry_raw_lt16 (c : VolCfg) (d : Device) (idx : Nat) (h : c.fat32 = false) :
    fat_entry_raw c d idx < 65536 := by
  unfold fat_entry_raw
  simp only [h, Bool.false_eq_true, if_false]
  exact read_u16_lt _ _

theorem fat_entry_raw_lt32 (c : VolCfg) (d : Device) (idx : Nat) (h : c.fat32 = true) :
    fat_entry_raw c d idx < 4294967296 := by
  unfold fat_entry_raw
  simp only [h, if_true]
  exact read_u32_lt _ _

/-- On FAT16 the entry value is the raw 16 bits. -/
theorem fat_entry_of_fat16 (c : VolCfg) (d : Device) (idx : Nat) (h : c.fat32 = false) :
    fat_entry c d idx = fat_entry_raw c d idx := by
  unfold fat_entry
  simp [h]

/-- On FAT32 the entry value is the masked raw bits. -/
theorem fat_entry_of_fat32 (c : VolCfg) (d : Device) (idx : Nat) (h : c.fat32 = true) :
    fat_entry c d idx = fat_entry_raw c d idx &&& 0xFFFFFFF := by
  unfold fat_entry
  simp [h]

/-- `Volume::next` never takes its out-of-bounds guard. -/
theorem Volume.next_eq_val (c : VolCfg) (d : Device) (idx : Nat) :
    Volume.next c d idx =
      (if c.fat32 then next_val32 (fat_entry_raw c d idx &&& 0xFFFFFFF)
       else next_val16 (fat_entry_raw c d idx)) := by
  have hle := offset_fst_add_width_le c idx
  by_cases h : c.fat32
  · have hw : c.width = 4 := by simp [VolCfg.width, h]
    rw [hw] at hle
    simp only [Volume.next, BLOCK_SIZE, h, if_true]
    rw [if_neg (by omega)]
  · have hw : c.width = 2 := by simp [VolCfg.width, h]
    rw [hw] at hle
    simp only [Volume.next, BLOCK_SIZE, h, Bool.false_eq_true, if_false]
    rw [if_neg (by omega)]

/-- `Manager::cluster_next` never takes its out-of-bounds guards. -/
theorem Manager.cluster_next_eq_val (c : VolCfg) (d : Device) (pos : Nat) :
    Manager.cluster_next c d pos =
      (if c.fat32 then next_val32 (fat_entry_raw c d pos &&& 0xFFFFFFF)
       else cluster_next_val16 (fat_entry_raw c d pos)) := by
  have hle := offset_fst_add_width_le c pos
  by_cases h : c.fat32
  · have hw : c.width = 4 := by simp [VolCfg.width, h]
    rw [hw] at hle
    simp only [Manager.cluster_next, BLOCK_SIZE, h, Bool.true_eq_false, false_and,
      if_false, true_and, if_true]
    rw [if_neg (by omega)]
  · have hw : c.width = 2 := by simp [VolCfg.width, h]
    rw [hw] at hle
    simp only [Manager.cluster_next, BLOCK_SIZE, h, Bool.false_eq_true, false_and,
      if_false, true_and]
    rw [if_neg (by omega)]

/-! ### C4 — classification of `Volume::next` results -/

/-- C4: for every FAT entry value read by `Volume::next`: on FAT16 the result is
    `Ok(None)` exactly on `0xFFF8..=0xFFFF`, `InvalidCluster` exactly on
    `0xFFF7`, `InvalidChain` exactly on `0`, `Ok(Some(v))` otherwise; on FAT32,
    for the value masked to the low 28 bits, `Ok(None)` exactly on `0x1` and
    `0xFFFFFF8..=0xFFFFFFF`, `InvalidCluster` exactly on `0xFFFFFF7`,
    `InvalidChain` exactly on `0`, `Ok(Some(v))` otherwise. -/
theorem c4_next_classification (c : VolCfg) (d : Device) (idx : Nat) :
    (c.fat32 = false →
      (Volume.next c d idx = .ok none ↔
        0xFFF8 ≤ fat_entry c d idx ∧ fat_entry c d idx ≤ 0xFFFF) ∧
      (Volume.next c d idx = .error .InvalidCluster ↔ fat_entry c d idx = 0xFFF7) ∧
      (Volume.next c d idx = .error .InvalidChain ↔ fat_entry c d idx = 0) ∧
      (∀ w, Volume.next c d idx = .ok (some w) ↔
        (w = fat_entry c d idx ∧ 0 < fat_entry c d idx ∧ fat_entry c d idx ≠ 0xFFF7 ∧
          fat_entry c d idx < 0xFFF8))) ∧
    (c.fat32 = true →
      (Volume.next c d idx = .ok none ↔
        fat_entry c d idx = 0x1 ∨
          (0xFFFFFF8 ≤ fat_entry c d idx ∧ fat_entry c d idx ≤ 0xFFFFFFF)) ∧
      (Volume.next c d idx = .error .InvalidCluster ↔ fat_entry c d idx = 0xFFFFFF7) ∧
      (Volume.next c d idx = .error .InvalidChain ↔ fat_entry c d idx = 0) ∧
      (∀ w, Volume.next c d idx = .ok (some w) ↔
        (w = fat_entry c d idx ∧ 0 < fat_entry c d idx ∧ fat_entry c d idx ≠ 0xFFFFFF7 ∧
          fat_entry c d idx ≠ 0x1 ∧ fat_entry c d idx < 0xFFFFFF8))) := by
  constructor
  · intro h
    rw [Volume.next_eq_val]
    rw [fat_entry_of_fat16 c d idx h] at *
    have hlt := fat_entry_raw_lt16 c d idx h
    simp only [h, Bool.false_eq_true, if_false]
    generalize fat_entry_raw c d idx = v at *
    unfold next_val16
    refine ⟨?_, ?_, ?_, fun w => ?_⟩ <;>
      split <;> (try split) <;> (try split) <;> (try split) <;>
      simp_all <;> omega
  · intro h
    rw [Volume.next_eq_val]
    rw [fat_entry_of_fat32 c d idx h] at *
    have hmask : fat_entry_raw c d idx &&& 0xFFFFFF7 + 8 = fat_entry_raw c d idx &&& 0xFFFFFF7 + 8 := rfl
    have hlt : fat_entry_raw c d idx &&& 0xFFFFFFF ≤ 0xFFFFFFF := Nat.and_le_right
    simp only [h, if_true]
    generalize fat_entry_raw c d idx &&& 0xFFFFFFF = v at *
    unfold next_val32
    refine ⟨?_, ?_, ?_, fun w => ?_⟩ <;>
      split <;> (try split) <;> (try split) <;> (try split) <;>
      simp_all <;> omega

/-- A FAT16 test configuration: FAT at sector 1, data at sector 2,
    one sector per cluster. -/
def cfg16 : VolCfg := ⟨false, 16, 1, 0, 2, 32, 1⟩

/-- A device whose FAT16 entry for cluster 3 is 5 (all else 0). -/
def dev5 : Device := fun n j => if n = 1 ∧ j = 6 then 5 else 0

/-- C4 witness: the classification applied at a concrete FAT16 device whose
    entry for cluster 3 holds 5. -/
theorem c4_next_classification_witness :
    Volume.next cfg16 dev5 3 = .ok (some 5) :=
  (((c4_next_classification cfg16 dev5 3).1 rfl).2.2.2 5).2 (by decide)

/-! ### C10 — `Manager::cluster_next` vs `Volume::next` -/

/-- The all-zero device. -/
def dzero : Device := fun _ _ => 0

/-- C10 counterexample: on a FAT16 volume whose FAT entry for cluster 3 is 0,
    `Manager::cluster_next` returns `Ok(Some(0))` while `Volume::next` returns
    `Err(InvalidChain)` — the two do not agree, and `cluster_next` does not map
    the zero entry to `InvalidChain`. -/
theorem c10_cluster_next_counterexample :
    Manager.cluster_next cfg16 dzero 3 = .ok (some 0) ∧
    Volume.next cfg16 dzero 3 = .error .InvalidChain := ⟨rfl, rfl⟩

/-- C10 (amended): the two FAT-entry-follow embeddings agree on FAT32 for every
    sector content, and on FAT16 whenever the entry is nonzero; on a zero FAT16
    entry `Manager::cluster_next` returns `Ok(Some(0))` while `Volume::next`
    returns `Err(InvalidChain)`. -/
theorem c10_cluster_next_amended (c : VolCfg) (d : Device) (pos : Nat) :
    (c.fat32 = true → Manager.cluster_next c d pos = Volume.next c d pos) ∧
    (c.fat32 = false → 0 < fat_entry_raw c d pos →
      Manager.cluster_next c d pos = Volume.next c d pos) ∧
    (c.fat32 = false → fat_entry_raw c d pos = 0 →
      Manager.cluster_next c d pos = .ok (some 0) ∧
      Volume.next c d pos = .error .InvalidChain) := by
  refine ⟨fun h => ?_, fun h hv => ?_, fun h hv => ?_⟩
  · rw [Manager.cluster_next_eq_val, Volume.next_eq_val]
    simp [h]
  · rw [Manager.cluster_next_eq_val, Volume.next_eq_val]
    simp only [h, Bool.false_eq_true, if_false]
    unfold next_val16 cluster_next_val16
    rw [if_neg (show ¬fat_entry_raw c d pos = 0 by omega)]
  · rw [Manager.cluster_next_eq_val, Volume.next_eq_val]
    simp only [h, Bool.false_eq_true, if_false, hv]
    constructor <;> rfl

/-- C10 witness: the amended agreement applied at a concrete FAT16 device with
    a nonzero entry (cluster 3 ↦ 5). -/
theorem c10_cluster_next_amended_witness :
    Manager.cluster_next cfg16 dev5 3 = Volume.next cfg16 dev5 3 :=
  (c10_cluster_next_amended cfg16 dev5 3).2.1 rfl (by decide)

/-! ## FAT mutation and chain truncation (`Volume::update`/`Volume::truncate`) -/

/-- `CLUSTER_EOF` (volume.rs 45). -/
def CLUSTER_EOF : Nat := 0xFFFFFFFF

/-- `Volume::update` (volume.rs 433-446): read the FAT sector, splice the
    entry, write the sector back.  Returns the new device state and the scratch
    block after the call.  On FAT32 the unmasked `val` is ORed over the
    preserved top nibble; an entry whose offset fails `i + width < Block::SIZE`
    is left unwritten (the sector is still written back unchanged). -/
def Volume.update_tmp (c : VolCfg) (st : DState) (idx val : Nat) : Block :=
  let i := (c.offset idx).1
  let tmp := st.dev (c.offset idx).2
  if c.fat32 then
    if i + 4 < BLOCK_SIZE then
      write_u32 tmp i ((read_u32 tmp i &&& 0xF0000000) ||| val)
    else tmp
  else
    if i + 2 < BLOCK_SIZE then write_u16 tmp i (val % 65536) else tmp

/-- see `Volume.update_tmp` for the spliced sector content. -/
def Volume.update (c : VolCfg) (st : DState) (idx val : Nat) : DState × Block :=
  (st.write_single (Volume.update_tmp c st idx val) (c.offset idx).2,
    Volume.update_tmp c st idx val)

/-- `ClusterIndex::add_one` (objects.rs 93-99): `None` becomes `Some(1)`;
    otherwise a saturating (at `u32::MAX`) increment. -/
def ClusterIndex.add_one : Option Nat → Option Nat
  | some n => some (min (n + 1) 0xFFFFFFFF)
  | none => some 1

/-- `ClusterIndex::sub_one` (objects.rs 85-92). -/
def ClusterIndex.sub_one : Option Nat → Option Nat
  | some n => if n = 1 then none else some (n - 1)
  | none => none

/-- `Clusters::free_set` (volume.rs 147-154): keep the current hint when it is
    already `≤ v`, otherwise replace it by `v`. -/
def Clusters.free_set (v : Nat) (cur : Option Nat) : Option Nat :=
  match cur with
  | some i => if i ≤ v then some i else some v
  | none => some v

/-- `ClusterIndex::add_one` iterated `k` times. -/
def add_one_iter : Nat → Option Nat → Option Nat
  | 0, o => o
  | k + 1, o => add_one_iter k (ClusterIndex.add_one o)

/-- The `loop` of `Volume::truncate` (volume.rs 381-391): read the successor,
    zero the current entry, step; `free_add` only when there is a successor.
    Fuel exhaustion yields an error no sufficient-fuel run can produce. -/
def Volume.truncLoop (c : VolCfg) :
    Nat → DState → Option Nat → Nat → Except DeviceError (DState × Block × Option Nat)
  | 0, _, _, _ => .error .NoSpace
  | fuel + 1, st, free, x =>
    match Volume.next c st.dev x with
    | .error e => .error e
    | .ok r =>
      let p := Volume.update c st x 0
      match r with
      | some v => Volume.truncLoop c fuel p.1 (ClusterIndex.add_one free) v
      | none => .ok (p.1, p.2, free)

/-- `Volume::truncate` (volume.rs 370-393).  `free` is the in-memory free-count
    hint `info.free`; `tmp` is the caller's scratch block (returned updated). -/
def Volume.truncate (c : VolCfg) (fuel : Nat) (st : DState) (tmp : Block)
    (free : Option Nat) (idx : Nat) : Except DeviceError (DState × Block × Option Nat) :=
  if idx ≤ 2 then .ok (st, tmp, free)
  else
    match Volume.next c st.dev idx with
    | .error e => .error e
    | .ok none => .ok (st, st.dev (c.offset idx).2, free)
    | .ok (some n) =>
      let free := Clusters.free_set n free
      let p := Volume.update c st idx CLUSTER_EOF
      Volume.truncLoop c fuel p.1 free n

theorem write_u8_self (b : Block) (i v : Nat) : write_u8 b i v i = v % 256 := by
  unfold write_u8
  rw [if_pos rfl]

theorem write_u8_ne (b : Block) (i v j : Nat) (h : j ≠ i) : write_u8 b i v j = b j := by
  unfold write_u8
  rw [if_neg h]

theorem write_u16_ne (b : Block) (i v j : Nat) (h : j < i ∨ i + 2 ≤ j) :
    write_u16 b i v j = b j := by
  unfold write_u16
  rw [write_u8_ne _ _ _ _ (by omega), write_u8_ne _ _ _ _ (by omega)]

theorem write_u32_ne (b : Block) (i v j : Nat) (h : j < i ∨ i + 4 ≤ j) :
    write_u32 b i v j = b j := by
  unfold write_u32
  rw [write_u8_ne _ _ _ _ (by omega), write_u8_ne _ _ _ _ (by omega),
    write_u8_ne _ _ _ _ (by omega), write_u8_ne _ _ _ _ (by omega)]

/-- Reading a `u16` back from where it was just written. -/
theorem read_u16_write_u16 (b : Block) (i v : Nat) :
    read_u16 (write_u16 b i v) i = v % 65536 := by
  unfold read_u16 read_u8 write_u16
  rw [write_u8_ne _ _ _ _ (by omega : (i : Nat) ≠ i + 1), write_u8_self, write_u8_self]
  omega

/-- Reading a `u32` back from where it was just written. -/
theorem read_u32_write_u32 (b : Block) (i v : Nat) :
    read_u32 (write_u32 b i v) i = v % 4294967296 := by
  unfold read_u32 read_u8 write_u32
  rw [write_u8_ne _ _ _ _ (by omega : (i : Nat) ≠ i + 3),
    write_u8_ne _ _ _ _ (by omega : (i : Nat) ≠ i + 2),
    write_u8_ne _ _ _ _ (by omega : (i : Nat) ≠ i + 1), write_u8_self,
    write_u8_ne _ _ _ _ (by omega : (i : Nat) + 1 ≠ i + 3),
    write_u8_ne _ _ _ _ (by omega : (i : Nat) + 1 ≠ i + 2), write_u8_self,
    write_u8_ne _ _ _ _ (by omega : (i : Nat) + 2 ≠ i + 3), write_u8_self,
    write_u8_self]
  omega

/-- The device after `Volume::update`: only the FAT sector of `idx` changes,
    and it becomes `update_tmp`. -/
theorem Volume.update_fst_dev (c : VolCfg) (st : DState) (idx val m : Nat) :
    (Volume.update c st idx val).1.dev m =
      if m = (c.offset idx).2 then Volume.update_tmp c st idx val else st.dev m := rfl

/-- Bytes outside the spliced entry are unchanged in the written-back sector. -/
theorem Volume.update_tmp_ne (c : VolCfg) (st : DState) (idx val j : Nat)
    (hj : j < (c.offset idx).1 ∨ (c.offset idx).1 + c.width ≤ j) :
    Volume.update_tmp c st idx val j = st.dev (c.offset idx).2 j := by
  unfold Volume.update_tmp
  by_cases hf : c.fat32 = true
  · have hw : c.width = 4 := by unfold VolCfg.width; rw [if_pos hf]
    rw [hw] at hj
    rw [if_pos hf]
    split
    · exact write_u32_ne _ _ _ _ (by omega)
    · rfl
  · have hw : c.width = 2 := by unfold VolCfg.width; rw [if_neg hf]
    rw [hw] at hj
    rw [if_neg hf]
    split
    · exact write_u16_ne _ _ _ _ (by omega)
    · rfl

/-- `Volume::update` changes no device byte outside the targeted FAT entry. -/
theorem Volume.update_frame (c : VolCfg) (st : DState) (idx val m j : Nat)
    (h : m ≠ (c.offset idx).2 ∨ j < (c.offset idx).1 ∨ (c.offset idx).1 + c.width ≤ j) :
    (Volume.update c st idx val).1.dev m j = st.dev m j := by
  rw [Volume.update_fst_dev]
  by_cases hm : m = (c.offset idx).2
  · rw [if_pos hm, hm]
    have hj : j < (c.offset idx).1 ∨ (c.offset idx).1 + c.width ≤ j := by tauto
    exact Volume.update_tmp_ne c st idx val j hj
  · rw [if_neg hm]

/-- Distinct clusters occupy disjoint FAT entry byte ranges. -/
theorem entry_bytes_disjoint (c : VolCfg) (idx j : Nat) (hne : j ≠ idx) :
    (c.offset j).2 ≠ (c.offset idx).2 ∨
    (c.offset j).1 + c.width ≤ (c.offset idx).1 ∨
    (c.offset idx).1 + c.width ≤ (c.offset j).1 := by
  unfold VolCfg.offset VolCfg.width
  by_cases hf : c.fat32 = true
  · rw [if_pos hf]
    simp only []
    omega
  · rw [if_neg hf]
    simp only []
    omega

/-- The raw FAT entry of any other cluster survives `Volume::update`. -/
theorem fat_entry_raw_update_other (c : VolCfg) (st : DState) (idx val j : Nat)
    (hne : j ≠ idx) :
    fat_entry_raw c (Volume.update c st idx val).1.dev j = fat_entry_raw c st.dev j := by
  have hd := entry_bytes_disjoint c idx j hne
  have hb : ∀ t, t < c.width →
      (Volume.update c st idx val).1.dev (c.offset j).2 ((c.offset j).1 + t) =
        st.dev (c.offset j).2 ((c.offset j).1 + t) := by
    intro t ht
    apply Volume.update_frame
    rcases hd with h | h | h
    · exact Or.inl h
    · right; left; omega
    · right; right; omega
  unfold fat_entry_raw
  by_cases hf : c.fat32 = true
  · have hw : c.width = 4 := by unfold VolCfg.width; rw [if_pos hf]
    rw [hw] at hb
    rw [if_pos hf, if_pos hf]
    unfold read_u32 read_u8
    have h0 := hb 0 (by omega)
    have h1 := hb 1 (by omega)
    have h2 := hb 2 (by omega)
    have h3 := hb 3 (by omega)
    rw [Nat.add_zero] at h0
    rw [h0, h1, h2, h3]
  · have hw : c.width = 2 := by unfold VolCfg.width; rw [if_neg hf]
    rw [hw] at hb
    rw [if_neg hf, if_neg hf]
    unfold read_u16 read_u8
    have h0 := hb 0 (by omega)
    have h1 := hb 1 (by omega)
    rw [Nat.add_zero] at h0
    rw [h0, h1]

/-- The raw FAT16 entry written by `Volume::update` at its own cluster
    (when the entry's offset passes the `i + 2 < Block::SIZE` bound). -/
theorem fat_entry_raw_update_self16 (c : VolCfg) (st : DState) (idx val : Nat)
    (hf : c.fat32 = false) (hw : (c.offset idx).1 + c.width < 512) :
    fat_entry_raw c (Volume.update c st idx val).1.dev idx = val % 65536 := by
  have hf' : ¬c.fat32 = true := by rw [hf]; exact Bool.false_ne_true
  have hww : c.width = 2 := by unfold VolCfg.width; rw [if_neg hf']
  rw [hww] at hw
  unfold fat_entry_raw
  rw [Volume.update_fst_dev, if_pos rfl]
  unfold Volume.update_tmp
  rw [if_neg hf', if_neg hf']
  rw [if_pos (show (c.offset idx).1 + 2 < BLOCK_SIZE from by unfold BLOCK_SIZE; omega)]
  rw [read_u16_write_u16]
  omega

/-- The raw FAT32 entry written by `Volume::update` at its own cluster:
    the unmasked `val` is ORed over the preserved top nibble. -/
theorem fat_entry_raw_update_self32 (c : VolCfg) (st : DState) (idx val : Nat)
    (hf : c.fat32 = true) (hw : (c.offset idx).1 + c.width < 512) :
    fat_entry_raw c (Volume.update c st idx val).1.dev idx =
      ((read_u32 (st.dev (c.offset idx).2) (c.offset idx).1 &&& 0xF0000000) ||| val) %
        4294967296 := by
  have hww : c.width = 4 := by unfold VolCfg.width; rw [if_pos hf]
  rw [hww] at hw
  unfold fat_entry_raw
  rw [Volume.update_fst_dev, if_pos rfl]
  unfold Volume.update_tmp
  rw [if_pos hf, if_pos hf]
  rw [if_pos (show (c.offset idx).1 + 4 < BLOCK_SIZE from by unfold BLOCK_SIZE; omega)]
  exact read_u32_write_u32 _ _ _

/-- `0xF0000000 &&& 0xFFFFFFF = 0`, so a zeroed FAT entry reads back as value 0
    (on FAT32 even though its top nibble is preserved). -/
theorem fat_entry_update_zero (c : VolCfg) (st : DState) (idx : Nat)
    (hw : (c.offset idx).1 + c.width < 512) :
    fat_entry c (Volume.update c st idx 0).1.dev idx = 0 := by
  unfold fat_entry
  by_cases hf : c.fat32 = true
  · rw [if_pos hf]
    rw [fat_entry_raw_update_self32 c st idx 0 hf hw]
    rw [Nat.or_zero]
    have ha : read_u32 (st.dev (c.offset idx).2) (c.offset idx).1 &&& 0xF0000000 <
        4294967296 :=
      lt_of_le_of_lt Nat.and_le_left (read_u32_lt _ _)
    rw [Nat.mod_eq_of_lt ha]
    rw [Nat.and_assoc]
    rw [show (0xF0000000 &&& 0xFFFFFFF : Nat) = 0 from by decide, Nat.and_zero]
  · have hf0 : c.fat32 = false := by
      cases h' : c.fat32
      · rfl
      · exact absurd h' hf
    rw [if_neg hf]
    rw [fat_entry_raw_update_self16 c st idx 0 hf0 hw]

/-- After `Volume::update(idx, CLUSTER_EOF)`, `Volume::next` reports
    end-of-chain at `idx` (on both FAT versions). -/
theorem next_update_eoc (c : VolCfg) (st : DState) (idx : Nat)
    (hw : (c.offset idx).1 + c.width < 512) :
    Volume.next c (Volume.update c st idx CLUSTER_EOF).1.dev idx = .ok none := by
  rw [Volume.next_eq_val]
  by_cases hf : c.fat32 = true
  · rw [if_pos hf]
    rw [fat_entry_raw_update_self32 c st idx CLUSTER_EOF hf hw]
    have ha : read_u32 (st.dev (c.offset idx).2) (c.offset idx).1 &&& 0xF0000000 <
        4294967296 :=
      lt_of_le_of_lt Nat.and_le_left (read_u32_lt _ _)
    have hor : (read_u32 (st.dev (c.offset idx).2) (c.offset idx).1 &&& 0xF0000000) |||
        CLUSTER_EOF < 4294967296 := by
      have hb : CLUSTER_EOF < 2 ^ 32 := by unfold CLUSTER_EOF; omega
      have ha' : read_u32 (st.dev (c.offset idx).2) (c.offset idx).1 &&& 0xF0000000 <
          2 ^ 32 := by omega
      have := Nat.or_lt_two_pow ha' hb
      omega
    rw [Nat.mod_eq_of_lt hor]
    rw [Nat.and_distrib_right]
    rw [Nat.and_assoc]
    rw [show (0xF0000000 &&& 0xFFFFFFF : Nat) = 0 from by decide, Nat.and_zero]
    rw [show (CLUSTER_EOF &&& 0xFFFFFFF : Nat) = 0xFFFFFFF from by decide]
    rw [Nat.zero_or]
    rfl
  · have hf0 : c.fat32 = false := by
      cases h' : c.fat32
      · rfl
      · exact absurd h' hf
    rw [if_neg hf]
    rw [fat_entry_raw_update_self16 c st idx CLUSTER_EOF hf0 hw]
    rw [show (CLUSTER_EOF % 65536 : Nat) = 65535 from by decide]
    rfl

/-- The entry value is a function of the raw entry bits. -/
theorem fat_entry_congr (c : VolCfg) (d d' : Device) (idx : Nat)
    (h : fat_entry_raw c d idx = fat_entry_raw c d' idx) :
    fat_entry c d idx = fat_entry c d' idx := by
  unfold fat_entry
  rw [h]

/-- `Volume::next` is a function of the raw entry bits. -/
theorem Volume.next_congr (c : VolCfg) (d d' : Device) (idx : Nat)
    (h : fat_entry_raw c d idx = fat_entry_raw c d' idx) :
    Volume.next c d idx = Volume.next c d' idx := by
  rw [Volume.next_eq_val, Volume.next_eq_val, h]

/-- The cluster chain predicate: starting at `x`, the FAT entries link the
    clusters of `l` in order and the last one is end-of-chain, as seen by
    `Volume::next`. -/
def chainFrom (c : VolCfg) (d : Device) : Nat → List Nat → Prop
  | x, [] => Volume.next c d x = .ok none
  | x, y :: l => Volume.next c d x = .ok (some y) ∧ chainFrom c d y l

/-- A chain not through `idx` survives `Volume::update` at `idx`. -/
theorem chainFrom_update (c : VolCfg) (st : DState) (idx val : Nat) :
    ∀ (l : List Nat) (x : Nat), chainFrom c st.dev x l → idx ∉ x :: l →
      chainFrom c (Volume.update c st idx val).1.dev x l := by
  intro l
  induction l with
  | nil =>
    intro x hc hm
    unfold chainFrom at *
    rw [Volume.next_congr c _ st.dev x (fat_entry_raw_update_other c st idx val x
      (by simp [List.mem_singleton] at hm; omega))]
    exact hc
  | cons y t ih =>
    intro x hc hm
    unfold chainFrom at hc ⊢
    simp only [List.mem_cons, not_or] at hm
    refine ⟨?_, ih y hc.2 (by simp only [List.mem_cons, not_or]; tauto)⟩
    rw [Volume.next_congr c _ st.dev x (fat_entry_raw_update_other c st idx val x
      (by omega))]
    exact hc.1

/-- Specification of the `Volume::truncate` loop: it zeroes every cluster of
    the tail, touches no other FAT entry, and increments the free hint once
    per cluster except the last. -/
theorem truncLoop_spec (c : VolCfg) (l : List Nat) :
    ∀ (x : Nat) (st : DState) (free : Option Nat) (fuel : Nat),
      chainFrom c st.dev x l →
      (x :: l).Nodup →
      (∀ z ∈ x :: l, (c.offset z).1 + c.width < 512) →
      l.length < fuel →
      ∃ st' tmp',
        Volume.truncLoop c fuel st free x = .ok (st', tmp', add_one_iter l.length free) ∧
        (∀ z ∈ x :: l, fat_entry c st'.dev z = 0) ∧
        (∀ j, j ∉ x :: l → fat_entry_raw c st'.dev j = fat_entry_raw c st.dev j) := by
  induction l with
  | nil =>
    intro x st free fuel hc hnd hb hfuel
    match fuel, hfuel with
    | fuel + 1, _ =>
      unfold chainFrom at hc
      refine ⟨(Volume.update c st x 0).1, (Volume.update c st x 0).2, ?_, ?_, ?_⟩
      · simp only [Volume.truncLoop]
        rw [hc]
        rfl
      · intro z hz
        simp only [List.mem_singleton] at hz
        subst hz
        exact fat_entry_update_zero c st z (hb z (by simp))
      · intro j hj
        simp only [List.mem_singleton] at hj
        exact fat_entry_raw_update_other c st x 0 j hj
  | cons y t ih =>
    intro x st free fuel hc hnd hb hfuel
    match fuel, hfuel with
    | fuel + 1, hfuel1 =>
      unfold chainFrom at hc
      have hnd' := hnd
      rw [List.nodup_cons] at hnd'
      have hx_not : x ∉ y :: t := hnd'.1
      have hchain1 : chainFrom c (Volume.update c st x 0).1.dev y t :=
        chainFrom_update c st x 0 t y hc.2 (by
          simp only [List.mem_cons, not_or]
          simp only [List.mem_cons, not_or] at hx_not
          tauto)
      obtain ⟨st', tmp', hres, hzero, hframe⟩ :=
        ih y (Volume.update c st x 0).1 (ClusterIndex.add_one free) fuel hchain1
          (by rw [List.nodup_cons] at hnd; exact hnd.2)
          (by intro z hz; exact hb z (by simp only [List.mem_cons] at hz ⊢; tauto))
          (by simp only [List.length_cons] at hfuel1; omega)
      refine ⟨st', tmp', ?_, ?_, ?_⟩
      · simp only [Volume.truncLoop]
        rw [hc.1]
        exact hres
      · intro z hz
        simp only [List.mem_cons] at hz
        rcases hz with rfl | hz
        · rw [fat_entry_congr c _ (Volume.update c st z 0).1.dev z
            (hframe z (by simpa using hx_not))]
          exact fat_entry_update_zero c st z (hb z (by simp))
        · exact hzero z (by simpa using hz)
      · intro j hj
        simp only [List.mem_cons, not_or] at hj
        rw [hframe j (by simp only [List.mem_cons, not_or]; tauto)]
        exact fat_entry_raw_update_other c st x 0 j (by tauto)

/-! ### C2 — `Volume::truncate` -/

/-- C2 (amended): truncating a chain `pos → c1 → …` with `pos > 2` (the
    `is_valid` bound; cluster indices `≤ 2` are no-ops), all entries writable
    and clusters distinct, marks `pos` end-of-chain and zeroes every freed tail
    cluster's FAT entry; the free-count hint is first *replaced* by the first
    freed cluster number whenever it is absent or larger (`free_set`), and then
    incremented once per freed cluster *except the last* (the loop breaks
    before the final `free_add`), i.e. `k - 1` times for `k` freed clusters. -/
theorem c2_truncate_amended (c : VolCfg) (st : DState) (tmp : Block)
    (free : Option Nat) (pos c1 : Nat) (rest : List Nat) (fuel : Nat)
    (hpos : 2 < pos)
    (hchain : chainFrom c st.dev pos (c1 :: rest))
    (hnd : (pos :: c1 :: rest).Nodup)
    (hb : ∀ z ∈ pos :: c1 :: rest, (c.offset z).1 + c.width < 512)
    (hfuel : rest.length < fuel) :
    ∃ st' tmp',
      Volume.truncate c fuel st tmp free pos =
        .ok (st', tmp', add_one_iter rest.length (Clusters.free_set c1 free)) ∧
      Volume.next c st'.dev pos = .ok none ∧
      (∀ z ∈ c1 :: rest, fat_entry c st'.dev z = 0) := by
  unfold chainFrom at hchain
  have hnd' := hnd
  rw [List.nodup_cons] at hnd'
  have hpos_not : pos ∉ c1 :: rest := hnd'.1
  have hchain1 : chainFrom c (Volume.update c st pos CLUSTER_EOF).1.dev c1 rest :=
    chainFrom_update c st pos CLUSTER_EOF rest c1 hchain.2 (by
      simp only [List.mem_cons, not_or]
      simp only [List.mem_cons, not_or] at hpos_not
      tauto)
  obtain ⟨st', tmp', hres, hzero, hframe⟩ :=
    truncLoop_spec c rest c1 (Volume.update c st pos CLUSTER_EOF).1
      (Clusters.free_set c1 free) fuel hchain1 hnd'.2
      (by intro z hz; exact hb z (by simp only [List.mem_cons] at hz ⊢; tauto))
      hfuel
  refine ⟨st', tmp', ?_, ?_, ?_⟩
  · unfold Volume.truncate
    rw [if_neg (show ¬pos ≤ 2 from by omega)]
    rw [hchain.1]
    exact hres
  · rw [Volume.next_congr c st'.dev (Volume.update c st pos CLUSTER_EOF).1.dev pos
      (hframe pos hpos_not)]
    exact next_update_eoc c st pos (hb pos (by simp))
  · exact hzero

/-- A FAT32 test configuration: info sector 9, FAT at sector 1, data at
    sector 2, one sector per cluster. -/
def cfg32c : VolCfg := ⟨true, 9, 1, 0, 2, 32, 1⟩

/-- A FAT32 device with the 3-cluster chain `3 → 4 → 5 → EOC`
    (entry 5 holds `0x0FFFFFFF`). -/
def dev32c : Device := fun n j =>
  if n = 1 then
    if j = 12 then 4
    else if j = 16 then 5
    else if j = 20 ∨ j = 21 ∨ j = 22 then 255
    else if j = 23 then 15
    else 0
  else 0

def st32c : DState := ⟨dev32c, 0⟩

/-- The all-zero scratch block. -/
def blk0 : Block := fun _ => 0

/-- C2 counterexample: truncating the 3-cluster chain `3 → 4 → 5` frees two
    clusters (entries 4 and 5 read back 0), but the free-count hint, starting
    at `Some(100)`, ends at `Some(5)` — not `Some(102)` as "incremented once
    per cluster freed" claims: `free_set` first overwrites the hint with the
    freed cluster number 4, and `free_add` runs only once (not after the last
    freed cluster). -/
theorem c2_truncate_counterexample :
    (Volume.truncate cfg32c 10 st32c blk0 (some 100) 3).map
        (fun r => (r.2.2, fat_entry cfg32c r.1.dev 4, fat_entry cfg32c r.1.dev 5)) =
      .ok (some 5, 0, 0) := by rfl

/-- C2 witness: the amended theorem applied to the concrete 3-cluster chain. -/
theorem c2_truncate_amended_witness :
    ∃ st' tmp',
      Volume.truncate cfg32c 10 st32c blk0 (some 100) 3 =
        .ok (st', tmp', add_one_iter 1 (Clusters.free_set 4 (some 100))) ∧
      Volume.next cfg32c st'.dev 3 = .ok none ∧
      (∀ z ∈ [4, 5], fat_entry cfg32c st'.dev z = 0) :=
  c2_truncate_amended cfg32c st32c blk0 (some 100) 3 4 [5] 10 (by omega)
    ⟨rfl, rfl, rfl⟩ (by decide) (by decide) (by decide)

/-! ## Free-cluster scan and allocation (`Volume::free`/`free_try`/`allocate`) -/

/-- The inner loop of `Volume::free` (volume.rs 452-458): scan the FAT entries
    of one sector `b` from byte offset `i`, cluster number `p`, until a zero
    entry or the end of the sector.  Returns the found cluster (if any) and the
    final `p`.  Fuel 257 dominates the at most 256 slots of a sector, so the
    fuel-0 arm is never reached from `freeScan`. -/
def Volume.freeInner (c : VolCfg) (b : Block) : Nat → Nat → Nat → Option Nat × Nat
  | 0, _, p => (none, p)
  | fuel + 1, i, p =>
    if i ≤ 512 - (if c.fat32 then 4 else 2) then
      if (if c.fat32 then read_u32 b i &&& 0xFFFFFFF = 0 else read_u16 b i = 0) then
        (some p, p)
      else Volume.freeInner c b fuel (i + (if c.fat32 then 4 else 2)) (p + 1)
    else (none, p)

/-- The outer loop of `Volume::free` (volume.rs 447-461): one FAT sector read
    per iteration.  `p` strictly increases each iteration, and the loop only
    continues while `p < end_`, so the fuel `end_ + 1` passed by `Volume.free`
    always dominates the iteration count; the fuel-0 arm mirrors the `NoSpace`
    fall-through.  Returns the result and the scratch block content. -/
def Volume.freeScan (c : VolCfg) (st : DState) (end_ : Nat) :
    Nat → Nat → Block → Except DeviceError Nat × Block
  | 0, _, tmp => (.error .NoSpace, tmp)
  | fuel + 1, p, tmp =>
    if p < end_ then
      let b := st.dev (c.offset p).2
      match Volume.freeInner c b 257 (c.offset p).1 p with
      | (some q, _) => (.ok q, b)
      | (none, p') => Volume.freeScan c st end_ fuel p' b
    else (.error .NoSpace, tmp)

/-- `Volume::free` (volume.rs 447-461). -/
def Volume.free (c : VolCfg) (st : DState) (tmp : Block) (start end_ : Nat) :
    Except DeviceError Nat × Block :=
  Volume.freeScan c st end_ (end_ + 1) start tmp

/-- `Volume::free_try` (volume.rs 425-432): on failure, rescan from cluster 2
    when the first scan started above 2. -/
def Volume.free_try (c : VolCfg) (st : DState) (tmp : Block) (start end_ : Nat) :
    Except DeviceError (Option Nat) × Block :=
  match Volume.free c st tmp start end_ with
  | (.ok v, tmp) => (.ok (some v), tmp)
  | (.error e, tmp) =>
    if start > 2 then
      match Volume.free c st tmp 2 end_ with
      | (.ok v, tmp) => (.ok (some v), tmp)
      | (.error e2, tmp) => (.error e2, tmp)
    else (.error e, tmp)

/-- The `zero` loop of `Volume::allocate` (volume.rs 476-481): write the
    cleared scratch to `count` consecutive sectors starting at `p`.  The Rust
    loop is `for i in p..=p + self.block.blocks()`, i.e. `count = blocks + 1`
    iterations — one sector more than the cluster holds. -/
def Volume.zero_fill (st : DState) (p : Nat) : Nat → DState
  | 0 => st
  | k + 1 => Volume.zero_fill (st.write_single blk0 p) (p + 1) k

/-- The scan start of `Volume::allocate` (volume.rs 464-467): `prev` when it is
    below the ceiling `count + 2`, else 2. -/
def Volume.alloc_start (c : VolCfg) (prev : Option Nat) : Nat :=
  match prev with
  | some v => if v < c.count + 2 then v else 2
  | none => 2

/-- The two FAT updates of `Volume::allocate` (volume.rs 469-472): mark the new
    cluster `n` end-of-chain, then link `prev → n` when `prev` is given. -/
def Volume.alloc_upd (c : VolCfg) (st : DState) (prev : Option Nat) (n : Nat) :
    DState × Block :=
  match prev with
  | some v => Volume.update c (Volume.update c st n CLUSTER_EOF).1 v n
  | none => Volume.update c st n CLUSTER_EOF

/-- `Volume::allocate` (volume.rs 462-484).  `nextHint`/`freeHint` mirror the
    in-memory `info.next`/`info.free`; on success returns
    `(new cluster, device state, scratch, next hint, free hint)`. -/
def Volume.allocate (c : VolCfg) (st : DState) (tmp : Block) (prev : Option Nat)
    (zero : Bool) (nextHint freeHint : Option Nat) :
    Except DeviceError (Nat × DState × Block × Option Nat × Option Nat) :=
  match Volume.free_try c st tmp (Volume.alloc_start c prev) (c.count + 2) with
  | (.error err, _) => .error err
  | (.ok none, _) => .error .NoSpace
  | (.ok (some n), _) =>
    match Volume.free_try c (Volume.alloc_upd c st prev n).1
        (Volume.alloc_upd c st prev n).2 n (c.count + 2) with
    | (.error err, _) => .error err
    | (.ok f, tmpB) =>
      if zero then
        .ok (n,
          Volume.zero_fill (Volume.alloc_upd c st prev n).1 (Volume.block_pos_at c n)
            (c.clusters + 1),
          blk0, f, ClusterIndex.sub_one freeHint)
      else .ok (n, (Volume.alloc_upd c st prev n).1, tmpB, f, ClusterIndex.sub_one freeHint)

theorem DState.write_single_dev (st : DState) (tmp : Block) (n m : Nat) :
    (st.write_single tmp n).dev m = if m = n then tmp else st.dev m := rfl

/-- Sectors outside `[p, p + count)` are untouched by the zero loop. -/
theorem Volume.zero_fill_frame :
    ∀ (count : Nat) (st : DState) (p m : Nat), m < p ∨ p + count ≤ m →
      (Volume.zero_fill st p count).dev m = st.dev m := by
  intro count
  induction count with
  | zero => intro st p m h; rfl
  | succ k ih =>
    intro st p m h
    unfold Volume.zero_fill
    rw [ih _ _ _ (by omega)]
    rw [DState.write_single_dev]
    rw [if_neg (by omega)]

/-- Sectors inside `[p, p + count)` hold the cleared scratch after the loop. -/
theorem Volume.zero_fill_zero :
    ∀ (count : Nat) (st : DState) (p m : Nat), p ≤ m → m < p + count →
      (Volume.zero_fill st p count).dev m = blk0 := by
  intro count
  induction count with
  | zero => intro st p m h1 h2; omega
  | succ k ih =>
    intro st p m h1 h2
    unfold Volume.zero_fill
    by_cases hm : m = p
    · subst hm
      rw [Volume.zero_fill_frame k _ (m + 1) m (by omega)]
      rw [DState.write_single_dev, if_pos rfl]
    · exact ih _ _ _ (by omega) (by omega)

/-- Bytes outside the two spliced entries are untouched by `alloc_upd`. -/
theorem Volume.alloc_upd_frame (c : VolCfg) (st : DState) (prev : Option Nat)
    (n m j : Nat)
    (h1 : m ≠ (c.offset n).2 ∨ j < (c.offset n).1 ∨ (c.offset n).1 + c.width ≤ j)
    (h2 : ∀ v, prev = some v →
      m ≠ (c.offset v).2 ∨ j < (c.offset v).1 ∨ (c.offset v).1 + c.width ≤ j) :
    (Volume.alloc_upd c st prev n).1.dev m j = st.dev m j := by
  unfold Volume.alloc_upd
  cases prev with
  | none => exact Volume.update_frame c st n CLUSTER_EOF m j h1
  | some v =>
    rw [Volume.update_frame _ _ v n m j (h2 v rfl)]
    exact Volume.update_frame c st n CLUSTER_EOF m j h1

/-- The device bytes written by a successful `Volume::allocate`: the FAT entry
    of the new cluster `n`, the FAT entry of `prev` (when given), and — when
    `zero` is set — the `clusters + 1` sectors starting at the first sector of
    `n`. -/
def alloc_touched (c : VolCfg) (prev : Option Nat) (n : Nat) (zero : Bool)
    (m j : Nat) : Prop :=
  (m = (c.offset n).2 ∧ (c.offset n).1 ≤ j ∧ j < (c.offset n).1 + c.width) ∨
  (∃ v, prev = some v ∧ m = (c.offset v).2 ∧ (c.offset v).1 ≤ j ∧
    j < (c.offset v).1 + c.width) ∨
  (zero = true ∧ Volume.block_pos_at c n ≤ m ∧
    m < Volume.block_pos_at c n + (c.clusters + 1))

/-- From negated "touched" facts to the disjunction `update_frame` expects. -/
theorem entry_untouched_of_imp (c : VolCfg) (m j x : Nat)
    (hx : m = (c.offset x).2 → (c.offset x).1 ≤ j → (c.offset x).1 + c.width ≤ j) :
    m ≠ (c.offset x).2 ∨ j < (c.offset x).1 ∨ (c.offset x).1 + c.width ≤ j := by
  by_cases hm : m = (c.offset x).2
  · by_cases hj : (c.offset x).1 ≤ j
    · exact Or.inr (Or.inr (hx hm hj))
    · exact Or.inr (Or.inl (by omega))
  · exact Or.inl hm

/-! ### C6 — frame condition of `Volume::allocate` -/

/-- C6 (amended): a successful `allocate` modifies on the device only the FAT
    entries of the new cluster `n` and of `prev`, plus — when `zero` is set —
    the `sectors-per-cluster + 1` consecutive sectors starting at `n`'s first
    sector (one sector more than the cluster holds: the loop is
    `p..=p + blocks`); those sectors are zero-filled.  The new cluster's entry
    is written as `CLUSTER_EOF` without masking — `0xFFFF` on FAT16, and on
    FAT32 the whole 32-bit entry becomes `0xFFFFFFFF`, so its top 4 bits are
    *not* preserved; the `prev` entry gets `(old & 0xF0000000) | n`, which does
    keep its top bits (for `n < 2^28`). -/
theorem c6_allocate_amended (c : VolCfg) (st : DState) (tmp : Block)
    (prev : Option Nat) (zero : Bool) (nh fh : Option Nat) (n : Nat) (st' : DState)
    (tmp' : Block) (nh' fh' : Option Nat)
    (h : Volume.allocate c st tmp prev zero nh fh = .ok (n, st', tmp', nh', fh')) :
    (∀ m j, ¬alloc_touched c prev n zero m j → st'.dev m j = st.dev m j) ∧
    (zero = true → ∀ m, Volume.block_pos_at c n ≤ m →
      m < Volume.block_pos_at c n + (c.clusters + 1) → ∀ j, st'.dev m j = 0) := by
  unfold Volume.allocate at h
  split at h
  · exact absurd h (by simp)
  · exact absurd h (by simp)
  · rename_i n0 tmpA heq1
    split at h
    · exact absurd h (by simp)
    · rename_i f tmpB heq2
      split at h
      · rename_i hz
        simp only [Except.ok.injEq, Prod.mk.injEq] at h
        obtain ⟨rfl, h2, h3, h4, h5⟩ := h
        subst h2
        constructor
        · intro m j hT
          unfold alloc_touched at hT
          push_neg at hT
          have hside : m < Volume.block_pos_at c n0 ∨
              Volume.block_pos_at c n0 + (c.clusters + 1) ≤ m := by
            rcases Nat.lt_or_ge m (Volume.block_pos_at c n0) with hlt | hge
            · exact Or.inl hlt
            · exact Or.inr (hT.2.2 hz hge)
          rw [Volume.zero_fill_frame _ _ _ _ hside]
          exact Volume.alloc_upd_frame c st prev n0 m j
            (entry_untouched_of_imp c m j n0 hT.1)
            (fun v hv => entry_untouched_of_imp c m j v (hT.2.1 v hv))
        · intro _ m hm1 hm2 j
          rw [Volume.zero_fill_zero _ _ _ _ hm1 hm2]
          rfl
      · rename_i hz
        simp only [Except.ok.injEq, Prod.mk.injEq] at h
        obtain ⟨rfl, h2, h3, h4, h5⟩ := h
        subst h2
        constructor
        · intro m j hT
          unfold alloc_touched at hT
          push_neg at hT
          exact Volume.alloc_upd_frame c st prev n0 m j
            (entry_untouched_of_imp c m j n0 hT.1)
            (fun v hv => entry_untouched_of_imp c m j v (hT.2.1 v hv))
        · intro hzz
          exact absurd hzz hz

/-- A FAT16 test configuration with 8 total sectors counted for the scan
    ceiling, FAT at sector 1, data at sector 2, one sector per cluster. -/
def cfg16a : VolCfg := ⟨false, 16, 1, 0, 2, 8, 1⟩

/-- A FAT16 device: entry 2 allocated, entries 3,4 free; byte 0 of sector 4
    (the first sector of cluster 4) holds 7. -/
def dev16a : Device := fun n j =>
  if n = 1 then (if j = 4 then 1 else 0)
  else if n = 4 ∧ j = 0 then 7
  else 0

def st16a : DState := ⟨dev16a, 0⟩

/-- C6 counterexample: allocating (with `zero` set) picks cluster 3, whose only
    sector is sector 3 (`block_pos_at 3 = 3`, 1 sector per cluster) — yet byte
    0 of sector 4, the first sector of the *next* cluster, is overwritten from
    7 to 0: the `p..=p + blocks` loop zero-fills `sectors-per-cluster + 1`
    sectors, so the claim's "exactly the sectors-per-cluster sectors of the new
    cluster, every other device byte unchanged" is false at this input. -/
theorem c6_allocate_counterexample :
    (Volume.allocate cfg16a st16a blk0 none true none (some 50)).map
        (fun r => (r.1, r.2.1.dev 4 0)) = .ok (3, 0) ∧
    st16a.dev 4 0 = 7 ∧
    Volume.block_pos_at cfg16a 3 = 3 ∧ cfg16a.clusters = 1 ∧
    Volume.block_pos_at cfg16a 4 = 4 :=
  ⟨rfl, rfl, rfl, rfl, rfl⟩

def c6w : Except DeviceError (Nat × DState × Block × Option Nat × Option Nat) :=
  Volume.allocate cfg16a st16a blk0 none false none (some 50)

def c6wSt : DState :=
  match c6w with
  | .ok r => r.2.1
  | .error _ => st16a

def c6wTmp : Block :=
  match c6w with
  | .ok r => r.2.2.1
  | .error _ => blk0

/-- C6 witness: the amended frame theorem applied to a concrete successful
    allocation (no zero-fill): an arbitrary byte away from the touched
    regions, here byte 3 of sector 9, is unchanged. -/
theorem c6_allocate_amended_witness : c6wSt.dev 9 3 = st16a.dev 9 3 :=
  (c6_allocate_amended cfg16a st16a blk0 none false none (some 50) 3 c6wSt c6wTmp
      (some 4) (some 49) rfl).1 9 3 (by
    intro hT
    rcases hT with ⟨h1, _, _⟩ | ⟨v, hv, _⟩ | ⟨hzz, _, _⟩
    · exact absurd h1 (by decide)
    · exact Option.noConfusion hv
    · exact absurd hzz (by decide))

/-! ## Directory entries and files (`src/fs/volume/file.rs`) -/

/-- The fields of `rpsp::time::Time` that the FAT layer serializes (`weekday`
    is never written; `month` carries the numeric value of the `Month` cast). -/
structure Time where
  year : Nat
  month : Nat
  day : Nat
  hours : Nat
  mins : Nat
  secs : Nat

/-- `time_write` (file.rs 906-914): pack a `Time` into two little-endian
    `u16`s at `pos` and `pos + 2`.  The `u16` `unchecked_shl` composed with the
    masks below equals plain multiplication and masking; `saturating_sub` is
    `Nat` subtraction. -/
def time_write (t : Time) (pos : Nat) (b : Block) : Block :=
  let b := write_u16 b pos
    ((t.hours * 2048 &&& 0xF800) ||| (t.mins * 32 &&& 0x7E0) ||| (t.secs / 2 &&& 0x1F))
  write_u16 b (pos + 2)
    (((t.year - 0x7B2 - 10) * 512 &&& 0xFE00) ||| ((t.month + 1) * 32 &&& 0x1E0) |||
      ((t.day + 1) &&& 0x1F))

/-- `DirEntry` (file.rs 46-56); `name` is the 11-byte short name buffer. -/
structure DirEntry where
  lfn : Nat
  name : List Nat
  size : Nat
  attrs : Nat
  block : Nat
  offset : Nat
  cluster : Option Nat
  created : Time
  modified : Time

/-- `ClusterIndex::EMPTY` (objects.rs 57). -/
def EMPTY : Nat := 0xFFFFFFFC

/-- `DirEntry::index` (file.rs 248-254). -/
def DirEntry.index (e : DirEntry) : Nat :=
  match e.cluster with
  | some v => v
  | none => EMPTY

/-- `DirEntry::write_entry` (file.rs 271-288), serializing into the slice
    `&mut t[off..]` of block `b`; `f` is `is_fat32`. -/
def DirEntry.write_entry (e : DirEntry) (f : Bool) (off : Nat) (b : Block) : Block :=
  let b := write_from b off e.name
  let b := write_u8 b (off + 11) e.attrs
  let b := write_u8 b (off + 12) 0
  let b := write_u8 b (off + 13) 0
  let b := write_u16 b (off + 18) 0
  let b := time_write e.created (off + 14) b
  let b :=
    if f then write_u16 b (off + 20) (e.index / 65536 &&& 0xFFFF)
    else write_u16 b (off + 20) 0
  let b := time_write e.modified (off + 22) b
  let b := write_u16 b (off + 26) (e.index &&& 0xFFFF)
  write_u32 b (off + 28) e.size

/-- `DirEntry::sync` (file.rs 350-357): read the entry's sector, splice the
    serialized record at `offset`, write the sector back (one device write). -/
def DirEntry.sync (e : DirEntry) (f : Bool) (st : DState) : Except DeviceError DState :=
  let tmp := st.dev e.block
  if e.offset > BLOCK_SIZE then .error .BadData
  else .ok (st.write_single (e.write_entry f e.offset tmp) e.block)

/-- `Volume::sync` (volume.rs 350-369): a no-op on FAT16, and on FAT32 when
    both hints are absent; otherwise writes the hint pair into the FS-info
    sector (one device write). -/
def Volume.sync (c : VolCfg) (st : DState) (nextHint freeHint : Option Nat) :
    Except DeviceError DState :=
  if c.fat32 = false then .ok st
  else if nextHint = none ∧ freeHint = none then .ok st
  else
    let tmp := st.dev c.sectorVal
    let tmp := match freeHint with
      | some v => write_u32 tmp 488 v
      | none => tmp
    let tmp := match nextHint with
      | some v => write_u32 tmp 492 v
      | none => tmp
    .ok (st.write_single tmp c.sectorVal)

/-- `File` (file.rs 75-83); `last` carries the raw `ClusterIndex` value. -/
structure File where
  pos : Nat
  file : DirEntry
  last : Nat
  mode : Nat
  short : Nat

/-- `File::is_dirty` (file.rs 582-584). -/
def File.is_dirty (f : File) : Bool := f.mode &&& 0x80 != 0

/-- `File::is_writeable` (file.rs 593-596). -/
def File.is_writeable (f : File) : Bool := f.mode &&& Mode.WRITE != 0

/-- `File::is_allocated` (file.rs 597-600): `cluster.is_some_and(is_valid)`. -/
def File.is_allocated (f : File) : Bool :=
  match f.file.cluster with
  | some v => v > 2
  | none => false

/-- `File::flush` (file.rs 615-622): no-op unless dirty; otherwise volume sync
    then entry sync.  No field of the handle is modified — in particular the
    dirty bit is not cleared. -/
def File.flush (c : VolCfg) (st : DState) (nextHint freeHint : Option Nat)
    (f : File) : Except DeviceError (File × DState) :=
  if f.is_dirty = true then
    match Volume.sync c st nextHint freeHint with
    | .error e => .error e
    | .ok st1 =>
      match f.file.sync c.fat32 st1 with
      | .error e => .error e
      | .ok st2 => .ok (f, st2)
  else .ok (f, st)

/-- `File::truncate` (file.rs 671-681).  The usize→u32 `try_into` fails above
    `u32::MAX`.  Note the comparison: the code tests `self.file.size > self.pos`
    (new size greater than cursor) and then sets the cursor *to the new size*. -/
def File.truncate (f : File) (pos : Nat) : Except DeviceError File :=
  if pos ≥ 4294967296 then .error .Overflow
  else if pos > f.file.size then .error .InvalidIndex
  else
    let f1 := { f with file := { f.file with size := pos } }
    .ok (if f1.file.size > f1.pos then { f1 with pos := pos } else f1)

/-- The chain walk of `File::data` (file.rs 727-730): `count` steps of
    `Volume::next`, each advancing `short` by one cluster of bytes and reading
    the FAT sector into the scratch.  Error paths discard the partial cursor
    updates (no theorem relies on state after a failed call). -/
def File.dataSteps (c : VolCfg) (st : DState) :
    Nat → Nat → Nat → Block → Except DeviceError (Nat × Nat × Block)
  | 0, last, short, d => .ok (last, short, d)
  | k + 1, last, short, d =>
    match Volume.next c st.dev last with
    | .error e => .error e
    | .ok none => .error .EndOfFile
    | .ok (some v) =>
      File.dataSteps c st k v (short + c.clusters * BLOCK_SIZE)
        (st.dev (c.offset last).2)

/-- The backward-seek reset at the head of `File::data` (file.rs 721-723). -/
def File.data_reset (f : File) : File :=
  if f.pos < f.short then { f with short := 0, last := f.file.index } else f

/-- `File::data` (file.rs 720-734): resolve the cursor to
    `(sector, offset in sector, bytes to sector end)`, walking the chain from
    the cached `(last, short)` pair (reset when the cursor moved backwards). -/
def File.data (c : VolCfg) (st : DState) (f : File) (d : Block) :
    Except DeviceError ((Nat × Nat × Nat) × File × Block) :=
  match File.dataSteps c st
      (((File.data_reset f).pos - (File.data_reset f).short) / (c.clusters * BLOCK_SIZE))
      (File.data_reset f).last (File.data_reset f).short d with
  | .error e => .error e
  | .ok (last, short, d) =>
    let i := Volume.block_pos_at c last + ((File.data_reset f).pos - short) / BLOCK_SIZE
    let o := (File.data_reset f).pos % BLOCK_SIZE
    .ok ((i, o, BLOCK_SIZE - o), { File.data_reset f with last := last, short := short }, d)

/-- The `Err(EndOfFile)` arm of the write loop (file.rs 645-648): allocate one
    more cluster chained from `file.cluster` and retry `data`, mapping any
    error of the retry to `Write`. -/
def File.data_or_extend (c : VolCfg) (st : DState) (f : File) (d : Block)
    (nh fh : Option Nat) :
    Except DeviceError ((Nat × Nat × Nat) × File × Block × DState ×
      Option Nat × Option Nat) :=
  match File.data c st f d with
  | .ok (tri, f, d) => .ok (tri, f, d, st, nh, fh)
  | .error .EndOfFile =>
    match Volume.allocate c st d f.file.cluster false nh fh with
    | .error e => .error e
    | .ok (_, st, d2, nh, fh) =>
      match File.data c st f d2 with
      | .error _ => .error .Write
      | .ok (tri, f, d) => .ok (tri, f, d, st, nh, fh)
  | .error e => .error e

/-- The `while p < t` loop of `File::write` (file.rs 641-664).  Each continuing
    iteration advances `p` by `n ≥ 1`, so fuel `t + 1` always dominates the
    iteration count; the fuel-0 arm errors with a marker no sufficient-fuel run
    produces.  `l` is the last-read sector (`u32::MAX` initially). -/
def File.writeLoop (c : VolCfg) (b : List Nat) (t : Nat) :
    Nat → DState → File → Block → Nat → Nat → Option Nat → Option Nat →
    Except DeviceError (Nat × File × DState × Block × Option Nat × Option Nat)
  | 0, _, _, _, _, _, _, _ => .error .Timeout
  | fuel + 1, st, f, d, p, l, nh, fh =>
    if p < t then
      match File.data_or_extend c st f d nh fh with
      | .error e => .error e
      | .ok ((i, o, a), f, d, st, nh, fh) =>
        if min a (t - p) = 0 then .ok (p, f, st, d, nh, fh)
        else
          File.writeLoop c b t fuel
            (st.write_single
              (write_from (if o ≠ 0 ∧ l ≠ i then st.dev i else d) o
                ((b.drop p).take (min a (t - p)))) i)
            { f with
              pos := min (f.pos + min a (t - p)) 4294967295,
              file := { f.file with size := min (f.file.size + min a (t - p)) 4294967295 } }
            (write_from (if o ≠ 0 ∧ l ≠ i then st.dev i else d) o
              ((b.drop p).take (min a (t - p))))
            (p + min a (t - p))
            (if o ≠ 0 ∧ l ≠ i then i else l) nh fh
    else .ok (p, f, st, d, nh, fh)

/-- The lazy-allocation prelude of `File::write` (file.rs 632-635): when the
    file has no valid start cluster, allocate one (no `prev`, no zero-fill) and
    clear the scratch. -/
def File.write_alloc (c : VolCfg) (st : DState) (f : File) (d0 : Block)
    (nh fh : Option Nat) :
    Except DeviceError (File × DState × Block × Option Nat × Option Nat) :=
  if f.is_allocated = true then .ok (f, st, d0, nh, fh)
  else
    match Volume.allocate c st d0 none false nh fh with
    | .error e => .error e
    | .ok (n, st, _, nh, fh) =>
      .ok ({ f with file := { f.file with cluster := some n } }, st, blk0, nh, fh)

/-- `File::write` (file.rs 623-667).  `d0` is the (arbitrary) initial content
    of the shared scratch buffer.  The byte budget is
    `t = min(len, FILE_MAX_SIZE - pos)`; fuel `t + 1` dominates the loop.
    Returns `(bytes written, handle, device, scratch, hints)`. -/
def File.write (c : VolCfg) (st : DState) (nh fh : Option Nat) (f : File)
    (d0 : Block) (b : List Nat) :
    Except DeviceError (Nat × File × DState × Block × Option Nat × Option Nat) :=
  if f.is_writeable = false then .error .NotWritable
  else if b.length = 0 then .ok (0, f, st, d0, nh, fh)
  else
    match File.write_alloc c st { f with mode := f.mode ||| 0x80 } d0 nh fh with
    | .error e => .error e
    | .ok (f, st, d, nh, fh) =>
      match f.file.cluster with
      | none => .error .Write
      | some cl =>
        match File.writeLoop c b (min b.length (4294967295 - f.pos))
            (min b.length (4294967295 - f.pos) + 1) st
            (if f.last < cl then { f with last := cl, short := 0 } else f)
            d 0 4294967295 nh fh with
        | .error e => .error e
        | .ok (p, f, st, d, nh, fh) =>
          .ok (p, { f with file := { f.file with attrs := f.file.attrs ||| 0x20 } },
            st, d, nh, fh)

/-- `File::data` never touches `mode`. -/
theorem File.data_mode (c : VolCfg) (st : DState) (f : File) (d : Block)
    (out : (Nat × Nat × Nat) × File × Block) (h : File.data c st f d = .ok out) :
    out.2.1.mode = f.mode := by
  unfold File.data at h
  split at h
  · exact absurd h (by simp)
  · simp only [Except.ok.injEq] at h
    subst h
    show (File.data_reset f).mode = f.mode
    unfold File.data_reset
    split <;> rfl

/-- The extended `data` of the write loop never touches `mode`. -/
theorem File.data_or_extend_mode (c : VolCfg) (st : DState) (f : File) (d : Block)
    (nh fh : Option Nat)
    (out : (Nat × Nat × Nat) × File × Block × DState × Option Nat × Option Nat)
    (h : File.data_or_extend c st f d nh fh = .ok out) : out.2.1.mode = f.mode := by
  unfold File.data_or_extend at h
  split at h
  · rename_i heq
    simp only [Except.ok.injEq] at h
    subst h
    exact File.data_mode _ _ _ _ _ heq
  · split at h
    · exact absurd h (by simp)
    · split at h
      · exact absurd h (by simp)
      · rename_i heq2
        simp only [Except.ok.injEq] at h
        subst h
        exact File.data_mode _ _ _ _ _ heq2
  · exact absurd h (by simp)

/-- The write loop never touches `mode`. -/
theorem File.writeLoop_mode (c : VolCfg) (b : List Nat) (t : Nat) :
    ∀ (fuel : Nat) (st : DState) (f : File) (d : Block) (p l : Nat)
      (nh fh : Option Nat) (out : Nat × File × DState × Block × Option Nat × Option Nat),
      File.writeLoop c b t fuel st f d p l nh fh = .ok out → out.2.1.mode = f.mode := by
  intro fuel
  induction fuel with
  | zero =>
    intro st f d p l nh fh out h
    exact absurd h (by simp [File.writeLoop])
  | succ k ih =>
    intro st f d p l nh fh out h
    unfold File.writeLoop at h
    split at h
    · split at h
      · exact absurd h (by simp)
      · rename_i i o a f1 d1 st1 nh1 fh1 heq
        have hf1 : f1.mode = f.mode := File.data_or_extend_mode c st f d nh fh _ heq
        split at h
        · simp only [Except.ok.injEq] at h
          subst h
          exact hf1
        · exact (ih _ _ _ _ _ _ _ _ h).trans hf1
    · simp only [Except.ok.injEq] at h
      subst h
      rfl

/-- `Volume::sync` performs at most one device write. -/
theorem Volume.sync_le_writes (c : VolCfg) (st : DState) (nh fh : Option Nat)
    (st1 : DState) (h : Volume.sync c st nh fh = .ok st1) :
    st.writes ≤ st1.writes := by
  unfold Volume.sync at h
  split at h
  · simp only [Except.ok.injEq] at h
    subst h
    exact Nat.le_refl _
  · split at h
    · simp only [Except.ok.injEq] at h
      subst h
      exact Nat.le_refl _
    · simp only [Except.ok.injEq] at h
      subst h
      exact Nat.le_succ _

/-- A successful `DirEntry::sync` performs exactly one device write. -/
theorem DirEntry.sync_adds_write (e : DirEntry) (f32 : Bool) (st : DState) (st2 : DState)
    (h : DirEntry.sync e f32 st = .ok st2) : st2.writes = st.writes + 1 := by
  unfold DirEntry.sync at h
  split at h
  · exact absurd h (by simp)
  · simp only [Except.ok.injEq] at h
    subst h
    rfl

/-- `write_alloc` never touches `mode`. -/
theorem File.write_alloc_mode (c : VolCfg) (st : DState) (f : File) (d0 : Block)
    (nh fh : Option Nat) (out : File × DState × Block × Option Nat × Option Nat)
    (h : File.write_alloc c st f d0 nh fh = .ok out) : out.1.mode = f.mode := by
  unfold File.write_alloc at h
  split at h
  · simp only [Except.ok.injEq] at h
    subst h
    rfl
  · split at h
    · exact absurd h (by simp)
    · simp only [Except.ok.injEq] at h
      subst h
      rfl

/-! ### C7 — the dirty bit across `write`/`flush` -/

/-- C7 (amended): a successful `write` of a nonempty buffer leaves the handle's
    mode with the dirty bit ORed in; `flush` on a non-dirty handle returns
    without touching the handle or the device (zero device writes); `flush`
    never modifies the handle — in particular it does *not* clear the dirty
    bit — so a successful flush of a dirty handle leaves it dirty and performs
    at least one device write, and so does an immediately repeated flush. -/
theorem c7_dirty_flush_amended :
    (∀ (c : VolCfg) (st : DState) (nh fh : Option Nat) (f : File) (d : Block)
        (b : List Nat) (out : Nat × File × DState × Block × Option Nat × Option Nat),
        b ≠ [] → File.write c st nh fh f d b = .ok out →
        out.2.1.mode = f.mode ||| 0x80) ∧
    (∀ (c : VolCfg) (st : DState) (nh fh : Option Nat) (f : File),
        f.is_dirty = false → File.flush c st nh fh f = .ok (f, st)) ∧
    (∀ (c : VolCfg) (st : DState) (nh fh : Option Nat) (f : File)
        (out : File × DState), File.flush c st nh fh f = .ok out → out.1 = f) ∧
    (∀ (c : VolCfg) (st : DState) (nh fh : Option Nat) (f : File)
        (out : File × DState), f.is_dirty = true → File.flush c st nh fh f = .ok out →
        st.writes < out.2.writes) := by
  refine ⟨?_, ?_, ?_, ?_⟩
  · intro c st nh fh f d b out hb h
    unfold File.write at h
    split at h
    · exact absurd h (by simp)
    · split at h
      · rename_i hlen
        exact absurd (List.length_eq_zero.mp hlen) hb
      · split at h
        · exact absurd h (by simp)
        · rename_i f1 st1 d1 nh1 fh1 heq1
          have hf1 : f1.mode = f.mode ||| 0x80 :=
            File.write_alloc_mode c st _ d nh fh _ heq1
          split at h
          · exact absurd h (by simp)
          · rename_i cl
            split at h
            · exact absurd h (by simp)
            · rename_i p2 f2 st2 d2 nh2 fh2 heq2
              simp only [Except.ok.injEq] at h
              subst h
              have hm2 := File.writeLoop_mode c b _ _ _ _ _ _ _ _ _ _ heq2
              show f2.mode = f.mode ||| 0x80
              refine hm2.trans (Eq.trans ?_ hf1)
              split <;> rfl
  · intro c st nh fh f hd
    unfold File.flush
    rw [hd]
    rfl
  · intro c st nh fh f out h
    unfold File.flush at h
    split at h
    · split at h
      · exact absurd h (by simp)
      · split at h
        · exact absurd h (by simp)
        · simp only [Except.ok.injEq] at h
          subst h
          rfl
    · simp only [Except.ok.injEq] at h
      subst h
      rfl
  · intro c st nh fh f out hd h
    unfold File.flush at h
    split at h
    · split at h
      · exact absurd h (by simp)
      · rename_i st1 heq1
        split at h
        · exact absurd h (by simp)
        · rename_i st2 heq2
          simp only [Except.ok.injEq] at h
          subst h
          have h1 := Volume.sync_le_writes c st nh fh st1 heq1
          have h2 := DirEntry.sync_adds_write f.file c.fat32 st1 st2 heq2
          show st.writes < st2.writes
          omega
    · rename_i hnd
      exact absurd hd hnd

/-- A fixed timestamp. -/
def tD : Time := ⟨2000, 4, 10, 3, 4, 8⟩

/-- An 11-byte short name `AB`. -/
def nameAB : List Nat := [65, 66, 0x20, 0x20, 0x20, 0x20, 0x20, 0x20, 0x20, 0x20, 0x20]

/-- A resolved entry: 3-byte file at cluster 3, record at sector 5 offset 32. -/
def deD : DirEntry := ⟨0, nameAB, 3, 0x20, 5, 32, some 3, tD, tD⟩

/-- A dirty writable handle on `deD` (`mode = WRITE | 0x80`). -/
def fD : File := ⟨0, deD, 3, 0x81, 0⟩

/-- A clean writable handle on `deD` (`mode = WRITE`). -/
def fC : File := ⟨0, deD, 3, 1, 0⟩

def stC : DState := ⟨dzero, 0⟩

/-- C7 counterexample: after one successful flush of the dirty handle the
    handle still reports dirty (claim: not dirty), and an immediately repeated
    flush performs another device write — two writes in total from a state
    with zero (claim: zero writes the second time). -/
theorem c7_dirty_flush_counterexample :
    (File.flush cfg16a stC none none fD).map (fun r => r.1.is_dirty) = .ok true ∧
    ((File.flush cfg16a stC none none fD).bind
        (fun r => File.flush cfg16a r.2 none none r.1)).map (fun r => r.2.writes) =
      .ok 2 := ⟨rfl, rfl⟩

def c7w : Except DeviceError (Nat × File × DState × Block × Option Nat × Option Nat) :=
  File.write cfg16a stC none none fC blk0 [7, 8]

def c7wOut : Nat × File × DState × Block × Option Nat × Option Nat :=
  match c7w with
  | .ok r => r
  | .error _ => (0, fC, stC, blk0, none, none)

/-- C7 witness: the amended theorem applied at concrete inputs — flushing the
    clean handle returns it with the state untouched, and a concrete 2-byte
    write sets the dirty bit. -/
theorem c7_dirty_flush_amended_witness :
    File.flush cfg16a stC none none fC = .ok (fC, stC) ∧
    c7wOut.2.1.mode = fC.mode ||| 0x80 :=
  ⟨c7_dirty_flush_amended.2.1 cfg16a stC none none fC rfl,
   c7_dirty_flush_amended.1 cfg16a stC none none fC blk0 [7, 8] c7wOut (by decide) rfl⟩

/-! ### C8 — `File::truncate` -/

/-- A 10-byte entry at cluster 3. -/
def de810 : DirEntry := ⟨0, nameAB, 10, 0x20, 5, 32, some 3, tD, tD⟩

/-- Handle with cursor at 10 (= size). -/
def f810 : File := ⟨10, de810, 3, 1, 0⟩

/-- Handle with cursor at 0. -/
def f010 : File := ⟨0, de810, 3, 1, 0⟩

/-- C8 (code evaluated at the failing inputs): `truncate(3)` on a size-10 file
    leaves a cursor of 10 at 10 — *above* the new size 3 (claim: clamped) —
    because the code tests `size > pos` instead of `pos > size`; and it moves a
    cursor of 0 up to 3 even though 0 is already within the new size (claim:
    unchanged).  The call itself succeeds and sets the size, and performs no
    device access (the function takes no device argument at all). -/
theorem c8_file_truncate_code_bug :
    (File.truncate f810 3).map (fun f => (f.file.size, f.pos)) = .ok (3, 10) ∧
    (File.truncate f010 3).map (fun f => (f.file.size, f.pos)) = .ok (3, 3) :=
  ⟨rfl, rfl⟩

end Inky
